import Mathlib

/-!
Verification development for the babylonjs bowling-alley repository.

The embedding models the throw / lane-reset state machine of the `App`
class (src/unnamed/part_001) and the movement-speed / direction-offset
logic of `CharacterController` (src/src/components/CharacterController.ts).

JavaScript numbers are modelled as rationals (`ℚ`); decimal literals in
the source are exact decimal rationals here.  Babylon physics bodies are
modelled by the attributes the code reads and writes: position,
orientation (as the Euler angles the code compares, `none` before the
first simulation step sets a `rotationQuaternion`), motion type and the
`disablePreStep` flag.  Event-driven code becomes a step function over an
explicit state type; the one-shot 6000 ms `setTimeout` of `setLaneStage`
becomes a pending-timer field fired by an explicit `timerFire` event, and
the `onAfterRenderObservable.addOnce` callbacks become a queue of
deferred operations run by an `afterRender` event.  The callbacks the
source registers with `addOnce` only ever re-enable `disablePreStep` and
restore `DYNAMIC` motion, which is why `DeferredOp` has exactly those two
constructors.
-/

/-- A 3-vector of JS numbers, as in `BABYLON.Vector3`. -/
structure Vec3 where
  x : ℚ
  y : ℚ
  z : ℚ
deriving DecidableEq

instance : Inhabited Vec3 := ⟨⟨0, 0, 0⟩⟩

/-- `BABYLON.PhysicsMotionType`; the code only uses `STATIC` and `DYNAMIC`. -/
inductive PhysicsMotionType where
  | STATIC
  | DYNAMIC
deriving DecidableEq

/-- State of one pin: the instanced mesh together with its physics
aggregate's body (they share the transform node).  `euler` is the
orientation as the Euler angles `isPinUp` derives from
`rotationQuaternion` (`none` while the quaternion is still unset). -/
structure PinState where
  euler : Option Vec3
  position : Vec3
  motionType : PhysicsMotionType
  disablePreStep : Bool
deriving DecidableEq

instance : Inhabited PinState :=
  ⟨⟨none, ⟨0, 0, 0⟩, PhysicsMotionType.DYNAMIC, true⟩⟩

/-- State of the bowling ball's mesh/body pair. -/
structure BallState where
  position : Vec3
  motionType : PhysicsMotionType
  disablePreStep : Bool
deriving DecidableEq

/-- Identifier of a physics body touched by the lane-reset logic. -/
inductive BodyId where
  | ball
  | pin (i : ℕ)
deriving DecidableEq

/-- An operation registered with `scene.onAfterRenderObservable.addOnce`.
Every such callback in the source only sets `disablePreStep = true`
and/or restores `PhysicsMotionType.DYNAMIC` on a body. -/
inductive DeferredOp where
  | preStepOn (b : BodyId)
  | makeDynamic (b : BodyId)
deriving DecidableEq

/-- The `App` fields the throw / lane-reset logic reads and writes,
plus the pending resolution timer and the deferred-callback queue. -/
structure AppState where
  allowThrow : Bool
  throwPower : ℚ
  throwAngle : ℚ
  laneStage : ℕ
  ball : BallState
  pins : List PinState
  resolutionTimer : Option ℕ
  deferred : List DeferredOp
deriving DecidableEq

/-- The fixed resolution delay of `setLaneStage`'s `setTimeout`, in ms. -/
def RESOLUTION_DELAY_MS : ℕ := 6000

/-- `App.pinPositions` (constructor). -/
def pinPositions : List Vec3 :=
  [⟨0, 0, 31.51⟩,
   ⟨0.55, 0, 32.455⟩,
   ⟨-0.55, 0, 32.455⟩,
   ⟨0, 0, 33.39⟩,
   ⟨1.1, 0, 33.39⟩,
   ⟨-1.1, 0, 33.39⟩,
   ⟨-1.65, 0, 34.35⟩,
   ⟨-0.55, 0, 34.35⟩,
   ⟨0.55, 0, 34.35⟩,
   ⟨1.65, 0, 34.35⟩]

/-- The upright Euler angles hardcoded in `isPinUp` and in the rotation
reset of `setLaneStage`. -/
def uprightEuler : Vec3 :=
  ⟨1.5650289785496072, 0.8744594232768839, 0.8744420168855229⟩

/-- `Math.abs` on a JS number. -/
def mathAbs (a : ℚ) : ℚ :=
  if a < 0 then -a else a

/-- `App.isPinUp`: upright iff the Euler angles derived from the pin's
`rotationQuaternion` are each within 0.07 of the upright constants;
a missing quaternion (optional chaining yields `undefined`) is
not-upright. -/
def isPinUp (pin : PinState) : Bool :=
  match pin.euler with
  | some rotation =>
    if mathAbs (rotation.x - 1.5650289785496072) < 0.07 ∧
       mathAbs (rotation.y - 0.8744594232768839) < 0.07 ∧
       mathAbs (rotation.z - 0.8744420168855229) < 0.07 then
      true
    else
      false
  | none => false

/-- `App.countStandingPins`. -/
def countStandingPins (pins : List PinState) : ℕ :=
  pins.foldl (fun pinsUp pin => if isPinUp pin then pinsUp + 1 else pinsUp) 0

/-- Ball reset common to both branches of the `setTimeout` body of
`setLaneStage`: disable pre-step, teleport to (0, 0.5, 1), freeze. -/
def resetBall (b : BallState) : BallState :=
  { b with
    disablePreStep := false
    position := ⟨0, 0.5, 1⟩
    motionType := PhysicsMotionType.STATIC }

/-- Stage-0 branch, per-pin effect: a pin that is not up is frozen
(`STATIC`), gets pre-step disabled, is lifted to `y = 1.5` and has its
rotation reset to the upright constants; an upright pin is untouched. -/
def freezeFallenPin (pin : PinState) : PinState :=
  if isPinUp pin then pin
  else
    { pin with
      motionType := PhysicsMotionType.STATIC
      disablePreStep := false
      position := { pin.position with y := 1.5 }
      euler := some uprightEuler }

/-- Stage-1 branch, per-pin effect: every pin is frozen, gets pre-step
disabled, and has rotation and position reset to the rest pose. -/
def resetPin (i : ℕ) (pin : PinState) : PinState :=
  { pin with
    motionType := PhysicsMotionType.STATIC
    disablePreStep := false
    euler := some uprightEuler
    position := pinPositions.getD i pin.position }

/-- The `addOnce` callback registered by the stage-0 branch of
`setLaneStage`: re-enable pre-step on the ball and make it dynamic
again.  It touches no pin. -/
def stage0DeferredOps : List DeferredOp :=
  [DeferredOp.preStepOn BodyId.ball, DeferredOp.makeDynamic BodyId.ball]

/-- The `addOnce` callback registered by the stage-1 branch of
`setLaneStage`: re-enable pre-step and dynamic motion on the ball, then
on every pin. -/
def stage1DeferredOps (n : ℕ) : List DeferredOp :=
  stage0DeferredOps ++
    (List.range n).flatMap
      (fun i => [DeferredOp.preStepOn (BodyId.pin i),
                 DeferredOp.makeDynamic (BodyId.pin i)])

/-- The body of the 6000 ms `setTimeout` inside `App.setLaneStage`:
flip the lane stage, reset the ball, freeze fallen pins (stage 0) or
reset every pin (stage 1), register the `addOnce` re-enable callbacks,
and finally set `allowThrow = true`. -/
def laneStageTimeout (s : AppState) : AppState :=
  if s.laneStage = 0 then
    { s with
      laneStage := 1
      ball := resetBall s.ball
      pins := s.pins.map freezeFallenPin
      deferred := s.deferred ++ stage0DeferredOps
      allowThrow := true
      resolutionTimer := none }
  else
    { s with
      laneStage := 0
      ball := resetBall s.ball
      pins := s.pins.enum.map (fun ip => resetPin ip.1 ip.2)
      deferred := s.deferred ++ stage1DeferredOps s.pins.length
      allowThrow := true
      resolutionTimer := none }

/-- `App.setLaneStage` (synchronous part): clear `allowThrow` and start
the one-shot 6000 ms timer. -/
def setLaneStage (s : AppState) : AppState :=
  { s with allowThrow := false, resolutionTimer := some RESOLUTION_DELAY_MS }

/-- Observable side effect of an input handler: the one impulse the
throw handler applies via `applyImpulse(vector, worldPoint)`. -/
inductive Effect where
  | applyImpulse (vector : Vec3) (worldPoint : Vec3)
deriving DecidableEq

/-- Input events of the throw / lane-reset logic.  `throwBall` is the
space key or swipe-up, `angleUp`/`angleDown` are w/s (arrow variants),
`nudgeLeft`/`nudgeRight` are a/d (arrow variants) or swipes,
`timerFire` is the pending `setTimeout` callback firing, and
`afterRender` runs the queued `addOnce` callbacks. -/
inductive InputEvent where
  | throwBall
  | angleUp
  | angleDown
  | nudgeLeft
  | nudgeRight
  | timerFire
  | afterRender
deriving DecidableEq

/-- Run one queued `addOnce` callback. -/
def applyDeferred (s : AppState) (op : DeferredOp) : AppState :=
  match op with
  | DeferredOp.preStepOn BodyId.ball =>
    { s with ball := { s.ball with disablePreStep := true } }
  | DeferredOp.makeDynamic BodyId.ball =>
    { s with ball := { s.ball with motionType := PhysicsMotionType.DYNAMIC } }
  | DeferredOp.preStepOn (BodyId.pin i) =>
    { s with pins := s.pins.enum.map (fun ip =>
        if ip.1 = i then { ip.2 with disablePreStep := true } else ip.2) }
  | DeferredOp.makeDynamic (BodyId.pin i) =>
    { s with pins := s.pins.enum.map (fun ip =>
        if ip.1 = i then { ip.2 with motionType := PhysicsMotionType.DYNAMIC }
        else ip.2) }

/-- One step of the event-driven `App` logic (`initControls` handlers,
the timer callback, and the after-render queue).  Returns the new state
and the impulses applied during the step.  The ball's cosmetic spin
({`ball.rotate`} in the angle handlers) is not represented: no claim
reads the ball's orientation. -/
def step (s : AppState) (e : InputEvent) : AppState × List Effect :=
  match e with
  | InputEvent.throwBall =>
    if !s.allowThrow then (s, [])
    else
      (setLaneStage s,
       [Effect.applyImpulse ⟨s.throwAngle, 0, s.throwPower⟩ s.ball.position])
  | InputEvent.angleUp =>
    if !s.allowThrow then (s, [])
    else
      ({ s with
         throwAngle := s.throwAngle + (if s.throwAngle ≥ 5 then 0 else 0.5)
         ball := { s.ball with disablePreStep := false }
         deferred := s.deferred ++ [DeferredOp.preStepOn BodyId.ball] }, [])
  | InputEvent.angleDown =>
    if !s.allowThrow then (s, [])
    else
      ({ s with
         throwAngle := s.throwAngle - (if s.throwAngle ≤ -5 then 0 else 0.5)
         ball := { s.ball with disablePreStep := false }
         deferred := s.deferred ++ [DeferredOp.preStepOn BodyId.ball] }, [])
  | InputEvent.nudgeLeft =>
    if !s.allowThrow then (s, [])
    else if s.ball.position.x > 1.8 then (s, [])
    else
      ({ s with ball := { s.ball with
          position := { s.ball.position with
            x := s.ball.position.x + 0.05 } } }, [])
  | InputEvent.nudgeRight =>
    if !s.allowThrow then (s, [])
    else if s.ball.position.x < -1.8 then (s, [])
    else
      ({ s with ball := { s.ball with
          position := { s.ball.position with
            x := s.ball.position.x - 0.05 } } }, [])
  | InputEvent.timerFire =>
    match s.resolutionTimer with
    | none => (s, [])
    | some _ => (laneStageTimeout s, [])
  | InputEvent.afterRender =>
    let t := s.deferred.foldl applyDeferred s
    ({ t with deferred := [] }, [])

/-- Run a sequence of events, discarding the effects. -/
def run (s : AppState) (evs : List InputEvent) : AppState :=
  evs.foldl (fun s e => (step s e).1) s

/-- The `App` state once initialization completes (`allowThrow = true`
is set at the end of the constructor's async body; ball at (0, 0.5, 1);
ten dynamic pins at `pinPositions` that have not been assigned a
`rotationQuaternion` yet). -/
def appInit : AppState :=
  { allowThrow := true
    throwPower := 100
    throwAngle := 0
    laneStage := 0
    ball := { position := ⟨0, 0.5, 1⟩
              motionType := PhysicsMotionType.DYNAMIC
              disablePreStep := true }
    pins := pinPositions.map (fun p =>
      { euler := none
        position := p
        motionType := PhysicsMotionType.DYNAMIC
        disablePreStep := true })
    resolutionTimer := none
    deferred := [] }

example :
    isPinUp ⟨some uprightEuler, ⟨0, 0, 0⟩, PhysicsMotionType.DYNAMIC, true⟩ = true := by
  norm_num [isPinUp, uprightEuler, mathAbs]

example : countStandingPins appInit.pins = 0 := by
  norm_num [countStandingPins, appInit, pinPositions, isPinUp]

/-!
Operation trace of the `setTimeout` body, for the teleport-ordering
claim.  Each primitive body mutation the source performs synchronously
inside the timeout is listed in program order; the `addOnce` callbacks
are the `DeferredOp` lists above, which run only after the next render.
-/

/-- A synchronous body mutation inside the `setTimeout` body. -/
inductive SyncOp where
  | disablePreStepFalse
  | motionStatic
  | writePosition (p : Vec3)
  | writePosY (y : ℚ)
  | writeEuler (e : Vec3)
deriving DecidableEq

/-- Whether an operation writes the body's position or orientation
(a "teleport"). -/
def isWriteOp : SyncOp → Bool
  | SyncOp.writePosition _ => true
  | SyncOp.writePosY _ => true
  | SyncOp.writeEuler _ => true
  | _ => false

/-- Ball reset, common to both branches: `disablePreStep = false`,
then the position write, then `setMotionType(STATIC)`. -/
def ballResetOps : List (BodyId × SyncOp) :=
  [(BodyId.ball, SyncOp.disablePreStepFalse),
   (BodyId.ball, SyncOp.writePosition ⟨0, 0.5, 1⟩),
   (BodyId.ball, SyncOp.motionStatic)]

/-- Stage-0 per-fallen-pin block: `setMotionType(STATIC)`,
`disablePreStep = false`, `position.y = 1.5`, rotation reset. -/
def freezePinOps (i : ℕ) : List (BodyId × SyncOp) :=
  [(BodyId.pin i, SyncOp.motionStatic),
   (BodyId.pin i, SyncOp.disablePreStepFalse),
   (BodyId.pin i, SyncOp.writePosY 1.5),
   (BodyId.pin i, SyncOp.writeEuler uprightEuler)]

/-- Stage-1 per-pin block: `setMotionType(STATIC)`,
`disablePreStep = false`, rotation reset, position reset. -/
def resetPinOps (i : ℕ) : List (BodyId × SyncOp) :=
  [(BodyId.pin i, SyncOp.motionStatic),
   (BodyId.pin i, SyncOp.disablePreStepFalse),
   (BodyId.pin i, SyncOp.writeEuler uprightEuler),
   (BodyId.pin i, SyncOp.writePosition (pinPositions.getD i ⟨0, 0, 0⟩))]

/-- Program-order trace of the synchronous mutations of the stage-0
branch: ball reset, then a freeze block for each pin not classified
upright. -/
def stage0SyncOps (pins : List PinState) : List (BodyId × SyncOp) :=
  ballResetOps ++
    pins.enum.flatMap (fun ip => if isPinUp ip.2 then [] else freezePinOps ip.1)

/-- Program-order trace of the synchronous mutations of the stage-1
branch: ball reset, then a reset block for every pin. -/
def stage1SyncOps (pins : List PinState) : List (BodyId × SyncOp) :=
  ballResetOps ++ pins.enum.flatMap (fun ip => resetPinOps ip.1)

/-- `writesGuarded off ops` holds when every position/orientation write
in `ops` is preceded (in `ops`, or already in `off`) by a
`disablePreStep = false` on the same body. -/
def writesGuarded (off : List BodyId) : List (BodyId × SyncOp) → Bool
  | [] => true
  | (b, SyncOp.disablePreStepFalse) :: rest => writesGuarded (b :: off) rest
  | (b, op) :: rest =>
    if isWriteOp op then decide (b ∈ off) && writesGuarded off rest
    else writesGuarded off rest

/-- Whether a deferred (`addOnce`) list re-enables pre-step on `b`. -/
def reEnabledIn (ops : List DeferredOp) (b : BodyId) : Bool :=
  decide (DeferredOp.preStepOn b ∈ ops)

/-!
CharacterController (src/src/components/CharacterController.ts, and the
identical iteration in src/unnamed/part_002).
-/

def CROUCH_SPEED : ℚ := 0.015

def WALK_SPEED : ℚ := 0.03

def RUN_SPEED : ℚ := 0.08

/-- The directional entries of `CharacterController.keyStatus` (the
map also tracks space and Shift, which `calculateDirectionOffset` never
reads). -/
structure KeyStatus where
  w : Bool
  arrowup : Bool
  a : Bool
  arrowleft : Bool
  s : Bool
  arrowright : Bool
  d : Bool
  arrowdown : Bool
deriving DecidableEq

/-- The if-cascade of `calculateDirectionOffset` as a function of the
four combined directional flags (each flag is the OR of a key and its
arrow alias). -/
def dirOffsetTable (pi : ℚ) (forward backward left right : Bool) : ℚ :=
  if forward then
    if right then pi * 0.25
    else if left then -pi * 0.25
    else 0
  else if backward then
    if right then pi * 0.25 + pi * 0.5
    else if left then -pi * 0.25 - pi * 0.5
    else pi
  else if right then pi * 0.5
  else if left then -pi * 0.5
  else 0

/-- `CharacterController.calculateDirectionOffset`: the nested
`switch (true)` over `keyStatus`, returning a yaw offset.  `Math.PI` is
passed in as `pi` (the model does not fix a rational approximation). -/
def calculateDirectionOffset (pi : ℚ) (ks : KeyStatus) : ℚ :=
  if ks.w || ks.arrowup then
    if ks.d || ks.arrowright then pi * 0.25
    else if ks.a || ks.arrowleft then -pi * 0.25
    else 0
  else if ks.s || ks.arrowdown then
    if ks.d || ks.arrowright then pi * 0.25 + pi * 0.5
    else if ks.a || ks.arrowleft then -pi * 0.25 - pi * 0.5
    else pi
  else if ks.d || ks.arrowright then pi * 0.5
  else if ks.a || ks.arrowleft then -pi * 0.5
  else 0

/-- The `CharacterController` fields mutated by the speed tier logic. -/
structure CCState where
  isCrouching : Bool
  isRunning : Bool
  isDancing : Bool
  moveSpeed : ℚ
deriving DecidableEq

/-- Key events of the speed-tier logic in `CharacterController.start`:
Shift down/up, Control down (`toggleRun`) and g down (dance toggle).
The handlers also maintain `keyStatus`, which the speed logic never
reads. -/
inductive CCKeyEvent where
  | shiftDown
  | shiftUp
  | controlDown
  | gDown
deriving DecidableEq

/-- `CharacterController.toggleRun`. -/
def toggleRun (st : CCState) : CCState :=
  let r := !st.isRunning
  { st with
    isRunning := r
    moveSpeed := if r then RUN_SPEED else WALK_SPEED }

/-- The key-down / key-up handlers registered in
`CharacterController.start`, restricted to the fields of `CCState`. -/
def ccStep (st : CCState) (e : CCKeyEvent) : CCState :=
  match e with
  | CCKeyEvent.shiftDown =>
    { st with
      moveSpeed := CROUCH_SPEED
      isCrouching := true
      isDancing := false }
  | CCKeyEvent.controlDown => toggleRun st
  | CCKeyEvent.gDown => { st with isDancing := !st.isDancing }
  | CCKeyEvent.shiftUp =>
    { st with
      isCrouching := false
      moveSpeed := if !st.isRunning then WALK_SPEED else RUN_SPEED }

/-- Run a sequence of controller key events. -/
def ccRun (st : CCState) (evs : List CCKeyEvent) : CCState :=
  evs.foldl ccStep st

/-- Initial controller state: field initializers of
`CharacterController` (`moveSpeed = WALK_SPEED`, all flags false). -/
def ccInit : CCState :=
  { isCrouching := false
    isRunning := false
    isDancing := false
    moveSpeed := WALK_SPEED }

/-!
Helper lemmas (shared; not claim theorems).
-/

lemma mathAbs_eq_abs (a : ℚ) : mathAbs a = |a| := by
  unfold mathAbs
  by_cases h : a < 0
  · rw [if_pos h, abs_of_neg h]
  · rw [if_neg h, abs_of_nonneg (le_of_not_lt h)]

lemma isPinUp_some (r p : Vec3) (m : PhysicsMotionType) (d : Bool) :
    isPinUp ⟨some r, p, m, d⟩ = true ↔
      |r.x - 1.5650289785496072| < 0.07 ∧
      |r.y - 0.8744594232768839| < 0.07 ∧
      |r.z - 0.8744420168855229| < 0.07 := by
  simp [isPinUp, mathAbs_eq_abs]

lemma isPinUp_none (p : Vec3) (m : PhysicsMotionType) (d : Bool) :
    isPinUp ⟨none, p, m, d⟩ = false := rfl

lemma isPinUp_eq_true_iff (pin : PinState) :
    isPinUp pin = true ↔
      ∃ r, pin.euler = some r ∧
        |r.x - 1.5650289785496072| < 0.07 ∧
        |r.y - 0.8744594232768839| < 0.07 ∧
        |r.z - 0.8744420168855229| < 0.07 := by
  obtain ⟨e, p, m, d⟩ := pin
  cases e with
  | none => simp [isPinUp]
  | some r => simp [isPinUp_some]

/-- C4: `isPinUp` is a pure function of the pin's orientation: upright
iff the Euler angles exist and each is (strictly) within 0.07 of the
upright constants; exactly the rest orientation classifies upright, an
axis off by more than the tolerance classifies fallen, and a missing
orientation classifies not-upright. -/
theorem isPinUp_characterization :
    (∀ pin : PinState, isPinUp pin = true ↔
      ∃ r, pin.euler = some r ∧
        |r.x - 1.5650289785496072| < 0.07 ∧
        |r.y - 0.8744594232768839| < 0.07 ∧
        |r.z - 0.8744420168855229| < 0.07) ∧
    (∀ (p : Vec3) (m : PhysicsMotionType) (d : Bool),
      isPinUp ⟨some uprightEuler, p, m, d⟩ = true) ∧
    (∀ (pin : PinState) (r : Vec3), pin.euler = some r →
      (0.07 < |r.x - 1.5650289785496072| ∨
       0.07 < |r.y - 0.8744594232768839| ∨
       0.07 < |r.z - 0.8744420168855229|) →
      isPinUp pin = false) ∧
    (∀ pin : PinState, pin.euler = none → isPinUp pin = false) := by
  refine ⟨isPinUp_eq_true_iff, ?_, ?_, ?_⟩
  · intro p m d
    rw [isPinUp_some]
    norm_num [uprightEuler]
  · intro pin r hr hout
    cases hb : isPinUp pin with
    | false => rfl
    | true =>
      exfalso
      obtain ⟨r', hr', hx, hy, hz⟩ := (isPinUp_eq_true_iff pin).1 hb
      rw [hr] at hr'
      obtain rfl : r = r' := by injection hr'
      rcases hout with h | h | h
      · exact absurd hx (not_lt.2 (le_of_lt h))
      · exact absurd hy (not_lt.2 (le_of_lt h))
      · exact absurd hz (not_lt.2 (le_of_lt h))
  · intro pin hnone
    obtain ⟨e, p, m, d⟩ := pin
    cases hnone
    rfl

/-- Witness for C4 at concrete orientations: the rest orientation is
upright, an x-axis offset of 0.08 is fallen, a missing orientation is
not-upright. -/
theorem isPinUp_characterization_witness :
    isPinUp ⟨some uprightEuler, ⟨0, 0, 0⟩, PhysicsMotionType.DYNAMIC, true⟩ = true ∧
    isPinUp ⟨some ⟨1.5650289785496072 + 0.08, 0.8744594232768839,
      0.8744420168855229⟩, ⟨0, 0, 0⟩, PhysicsMotionType.DYNAMIC, true⟩ = false ∧
    isPinUp ⟨none, ⟨0, 0, 0⟩, PhysicsMotionType.DYNAMIC, true⟩ = false := by
  refine ⟨isPinUp_characterization.2.1 _ _ _,
    isPinUp_characterization.2.2.1 _
      ⟨1.5650289785496072 + 0.08, 0.8744594232768839, 0.8744420168855229⟩
      rfl ?_,
    isPinUp_characterization.2.2.2 _ rfl⟩
  left
  rw [add_sub_cancel_left, abs_of_pos (by norm_num : (0:ℚ) < 0.08)]
  norm_num

/-- C10: the tolerance comparison of `isPinUp` is strict: upright needs
every axis strictly below 0.07 deviation, and a deviation of exactly
0.07 on any axis classifies the pin as fallen. -/
theorem isPinUp_tolerance_strict :
    ∀ (r p : Vec3) (m : PhysicsMotionType) (d : Bool),
      (isPinUp ⟨some r, p, m, d⟩ = true ↔
        |r.x - 1.5650289785496072| < 0.07 ∧
        |r.y - 0.8744594232768839| < 0.07 ∧
        |r.z - 0.8744420168855229| < 0.07) ∧
      ((|r.x - 1.5650289785496072| = 0.07 ∨
        |r.y - 0.8744594232768839| = 0.07 ∨
        |r.z - 0.8744420168855229| = 0.07) →
        isPinUp ⟨some r, p, m, d⟩ = false) := by
  intro r p m d
  refine ⟨isPinUp_some r p m d, ?_⟩
  intro heq
  cases hb : isPinUp ⟨some r, p, m, d⟩ with
  | false => rfl
  | true =>
    exfalso
    obtain ⟨hx, hy, hz⟩ := (isPinUp_some r p m d).1 hb
    rcases heq with h | h | h
    · exact absurd hx (by rw [h]; exact lt_irrefl _)
    · exact absurd hy (by rw [h]; exact lt_irrefl _)
    · exact absurd hz (by rw [h]; exact lt_irrefl _)

/-- Witness for C10: an orientation exactly 0.07 off on the y-axis is
classified fallen. -/
theorem isPinUp_tolerance_strict_witness :
    isPinUp ⟨some ⟨1.5650289785496072, 0.8744594232768839 + 0.07,
      0.8744420168855229⟩, ⟨0, 0, 0⟩, PhysicsMotionType.DYNAMIC, true⟩ = false := by
  refine (isPinUp_tolerance_strict
    ⟨1.5650289785496072, 0.8744594232768839 + 0.07, 0.8744420168855229⟩
    ⟨0, 0, 0⟩ PhysicsMotionType.DYNAMIC true).2 ?_
  right; left
  rw [add_sub_cancel_left, abs_of_pos (by norm_num : (0:ℚ) < 0.07)]

/-- C8: `calculateDirectionOffset` is a pure function of the four
combined directional flags (each the OR of a key and its arrow alias)
and matches the 9-entry combination table: forward 0, forward+right
pi/4, forward+left -pi/4, backward pi, backward+right 3pi/4,
backward+left -3pi/4, right pi/2, left -pi/2, empty 0. -/
theorem calculateDirectionOffset_table :
    ∀ pi : ℚ,
      (∀ ks : KeyStatus, calculateDirectionOffset pi ks =
        dirOffsetTable pi (ks.w || ks.arrowup) (ks.s || ks.arrowdown)
          (ks.a || ks.arrowleft) (ks.d || ks.arrowright)) ∧
      dirOffsetTable pi true false false false = 0 ∧
      dirOffsetTable pi true false false true = pi / 4 ∧
      dirOffsetTable pi true false true false = -(pi / 4) ∧
      dirOffsetTable pi false true false false = pi ∧
      dirOffsetTable pi false true false true = 3 * pi / 4 ∧
      dirOffsetTable pi false true true false = -(3 * pi / 4) ∧
      dirOffsetTable pi false false false true = pi / 2 ∧
      dirOffsetTable pi false false true false = -(pi / 2) ∧
      dirOffsetTable pi false false false false = 0 := by
  intro pi
  refine ⟨fun ks => rfl, ?_, ?_, ?_, ?_, ?_, ?_, ?_, ?_, ?_⟩ <;>
    simp [dirOffsetTable] <;> norm_num <;> ring

/-- C9 counterexample: with the run flag clear, press-and-hold Shift
(crouch) and then press Control while Shift is still held; the
commanded speed becomes `RUN_SPEED` although the crouch modifier is
still held, contradicting the claimed crouch > run-toggle precedence. -/
theorem speedTier_crouch_precedence_cex :
    (ccRun ccInit [CCKeyEvent.shiftDown, CCKeyEvent.controlDown]).isCrouching
        = true ∧
    (ccRun ccInit [CCKeyEvent.shiftDown, CCKeyEvent.controlDown]).moveSpeed
        = RUN_SPEED ∧
    RUN_SPEED ≠ CROUCH_SPEED := by
  refine ⟨rfl, rfl, ?_⟩
  norm_num [RUN_SPEED, CROUCH_SPEED]

/-- C9 as amended: Shift down always commands crouch speed; Control
down flips the run flag and immediately commands run/walk speed from
the new flag, even while the crouch modifier is held; Shift up clears
crouching and commands run speed when the run flag is set, else walk
speed. -/
theorem speedTier_event_semantics :
    ∀ st : CCState,
      (ccStep st CCKeyEvent.shiftDown).moveSpeed = CROUCH_SPEED ∧
      (ccStep st CCKeyEvent.shiftDown).isCrouching = true ∧
      (ccStep st CCKeyEvent.controlDown).isRunning = !st.isRunning ∧
      (ccStep st CCKeyEvent.controlDown).moveSpeed =
        (if !st.isRunning then RUN_SPEED else WALK_SPEED) ∧
      (ccStep st CCKeyEvent.shiftUp).isCrouching = false ∧
      (ccStep st CCKeyEvent.shiftUp).moveSpeed =
        (if st.isRunning then RUN_SPEED else WALK_SPEED) := by
  intro st
  refine ⟨rfl, rfl, rfl, rfl, rfl, ?_⟩
  cases h : st.isRunning <;> simp [ccStep, h]

/-!
Frame lemmas about the deferred (`addOnce`) queue: the re-enable
callbacks never touch the throw state, the lane stage or any position.
-/

lemma applyDeferred_fields (s : AppState) (op : DeferredOp) :
    (applyDeferred s op).throwAngle = s.throwAngle ∧
    (applyDeferred s op).allowThrow = s.allowThrow ∧
    (applyDeferred s op).resolutionTimer = s.resolutionTimer ∧
    (applyDeferred s op).ball.position = s.ball.position ∧
    (applyDeferred s op).laneStage = s.laneStage ∧
    (applyDeferred s op).throwPower = s.throwPower := by
  cases op with
  | preStepOn b => cases b <;> exact ⟨rfl, rfl, rfl, rfl, rfl, rfl⟩
  | makeDynamic b => cases b <;> exact ⟨rfl, rfl, rfl, rfl, rfl, rfl⟩

lemma foldl_applyDeferred_fields :
    ∀ (ops : List DeferredOp) (s : AppState),
      (ops.foldl applyDeferred s).throwAngle = s.throwAngle ∧
      (ops.foldl applyDeferred s).allowThrow = s.allowThrow ∧
      (ops.foldl applyDeferred s).resolutionTimer = s.resolutionTimer ∧
      (ops.foldl applyDeferred s).ball.position = s.ball.position ∧
      (ops.foldl applyDeferred s).laneStage = s.laneStage ∧
      (ops.foldl applyDeferred s).throwPower = s.throwPower := by
  intro ops
  induction ops with
  | nil => intro s; exact ⟨rfl, rfl, rfl, rfl, rfl, rfl⟩
  | cons op rest ih =>
    intro s
    have h1 := applyDeferred_fields s op
    have h2 := ih (applyDeferred s op)
    simp only [List.foldl_cons]
    exact ⟨h2.1.trans h1.1, h2.2.1.trans h1.2.1, h2.2.2.1.trans h1.2.2.1,
      h2.2.2.2.1.trans h1.2.2.2.1, h2.2.2.2.2.1.trans h1.2.2.2.2.1,
      h2.2.2.2.2.2.trans h1.2.2.2.2.2⟩

/-- The angle invariant: a multiple of 0.5 between -5 and 5
(equivalently `k/2` with `k` an integer in `[-10, 10]`). -/
def angleOK (a : ℚ) : Prop :=
  ∃ k : ℤ, a = k / 2 ∧ -10 ≤ k ∧ k ≤ 10

lemma angleOK_bounds {a : ℚ} (h : angleOK a) : -5 ≤ a ∧ a ≤ 5 := by
  obtain ⟨k, rfl, hlo, hhi⟩ := h
  have hlo' : (-10 : ℚ) ≤ (k : ℚ) := by exact_mod_cast hlo
  have hhi' : (k : ℚ) ≤ 10 := by exact_mod_cast hhi
  constructor <;> linarith

lemma step_throwAngle_unchanged (s : AppState) :
    (step s InputEvent.throwBall).1.throwAngle = s.throwAngle ∧
    (step s InputEvent.nudgeLeft).1.throwAngle = s.throwAngle ∧
    (step s InputEvent.nudgeRight).1.throwAngle = s.throwAngle ∧
    (step s InputEvent.timerFire).1.throwAngle = s.throwAngle ∧
    (step s InputEvent.afterRender).1.throwAngle = s.throwAngle := by
  refine ⟨?_, ?_, ?_, ?_, ?_⟩
  · cases h : s.allowThrow <;> simp [step, setLaneStage, h]
  · cases h : s.allowThrow
    · simp [step, h]
    · by_cases hx : s.ball.position.x > 1.8 <;> simp [step, h, hx]
  · cases h : s.allowThrow
    · simp [step, h]
    · by_cases hx : s.ball.position.x < -1.8 <;> simp [step, h, hx]
  · cases ht : s.resolutionTimer with
    | none => simp [step, ht]
    | some d =>
      by_cases hl : s.laneStage = 0 <;>
        simp [step, ht, laneStageTimeout, hl]
  · exact (foldl_applyDeferred_fields s.deferred s).1

lemma angleOK_step (s : AppState) (e : InputEvent)
    (h : angleOK s.throwAngle) : angleOK (step s e).1.throwAngle := by
  obtain ⟨k, hk, hlo, hhi⟩ := h
  cases e with
  | throwBall => rw [(step_throwAngle_unchanged s).1]; exact ⟨k, hk, hlo, hhi⟩
  | angleUp =>
    cases ha : s.allowThrow with
    | false => simp only [step, ha, Bool.not_false, if_pos]; exact ⟨k, hk, hlo, hhi⟩
    | true =>
      simp only [step, ha, Bool.not_true, Bool.false_eq_true, if_false]
      by_cases hge : s.throwAngle ≥ 5
      · rw [if_pos hge, add_zero]
        exact ⟨k, hk, hlo, hhi⟩
      · rw [if_neg hge]
        refine ⟨k + 1, ?_, by omega, ?_⟩
        · rw [hk]; push_cast; ring_nf
        · have h1 : (k : ℚ) / 2 < 5 := by rw [← hk]; exact lt_of_not_le hge
          have h2 : (k : ℚ) < 10 := by linarith
          have h3 : k < 10 := by exact_mod_cast h2
          omega
  | angleDown =>
    cases ha : s.allowThrow with
    | false => simp only [step, ha, Bool.not_false, if_pos]; exact ⟨k, hk, hlo, hhi⟩
    | true =>
      simp only [step, ha, Bool.not_true, Bool.false_eq_true, if_false]
      by_cases hle : s.throwAngle ≤ -5
      · rw [if_pos hle, sub_zero]
        exact ⟨k, hk, hlo, hhi⟩
      · rw [if_neg hle]
        refine ⟨k - 1, ?_, ?_, by omega⟩
        · rw [hk]; push_cast; ring_nf
        · have h1 : (-5 : ℚ) < (k : ℚ) / 2 := by rw [← hk]; exact lt_of_not_le hle
          have h2 : (-10 : ℚ) < (k : ℚ) := by linarith
          have h3 : (-10 : ℤ) < k := by exact_mod_cast h2
          omega
  | nudgeLeft => rw [(step_throwAngle_unchanged s).2.1]; exact ⟨k, hk, hlo, hhi⟩
  | nudgeRight => rw [(step_throwAngle_unchanged s).2.2.1]; exact ⟨k, hk, hlo, hhi⟩
  | timerFire => rw [(step_throwAngle_unchanged s).2.2.2.1]; exact ⟨k, hk, hlo, hhi⟩
  | afterRender => rw [(step_throwAngle_unchanged s).2.2.2.2]; exact ⟨k, hk, hlo, hhi⟩

lemma angleOK_run (s : AppState) (evs : List InputEvent)
    (h : angleOK s.throwAngle) : angleOK (run s evs).throwAngle := by
  induction evs generalizing s with
  | nil => exact h
  | cons e rest ih =>
    show angleOK (run (step s e).1 rest).throwAngle
    exact ih _ (angleOK_step s e h)

/-- C5: across every event sequence, `throwAngle` stays a multiple of
0.5 inside [-5, 5] (the invariant `angleOK` holds initially and is
preserved), a single event changes it by 0, +0.5 or -0.5, and at a
bound a further increment/decrement in that direction is a no-op. -/
theorem throwAngle_clamped :
    (∀ (s : AppState) (evs : List InputEvent),
      angleOK s.throwAngle → angleOK (run s evs).throwAngle) ∧
    (∀ a : ℚ, angleOK a → -5 ≤ a ∧ a ≤ 5 ∧ ∃ k : ℤ, a = k * 0.5) ∧
    angleOK appInit.throwAngle ∧
    (∀ s : AppState, s.throwAngle = 5 →
      (step s InputEvent.angleUp).1.throwAngle = 5) ∧
    (∀ s : AppState, s.throwAngle = -5 →
      (step s InputEvent.angleDown).1.throwAngle = -5) ∧
    (∀ (s : AppState) (e : InputEvent),
      (step s e).1.throwAngle = s.throwAngle ∨
      (step s e).1.throwAngle = s.throwAngle + 0.5 ∨
      (step s e).1.throwAngle = s.throwAngle - 0.5) := by
  refine ⟨angleOK_run, ?_, ⟨0, by norm_num [appInit]⟩, ?_, ?_, ?_⟩
  · intro a ha
    obtain ⟨k, rfl, hlo, hhi⟩ := ha
    refine ⟨(angleOK_bounds ⟨k, rfl, hlo, hhi⟩).1,
      (angleOK_bounds ⟨k, rfl, hlo, hhi⟩).2, k, by ring_nf⟩
  · intro s h5
    cases ha : s.allowThrow with
    | false => rw [(by simp [step, ha] : (step s InputEvent.angleUp).1 = s)]; exact h5
    | true =>
      simp only [step, ha, Bool.not_true, Bool.false_eq_true, if_false]
      rw [h5, if_pos (le_refl (5 : ℚ)), add_zero]
  · intro s h5
    cases ha : s.allowThrow with
    | false => rw [(by simp [step, ha] : (step s InputEvent.angleDown).1 = s)]; exact h5
    | true =>
      simp only [step, ha, Bool.not_true, Bool.false_eq_true, if_false]
      rw [h5, if_pos (le_refl (-5 : ℚ)), sub_zero]
  · intro s e
    cases e with
    | throwBall => exact Or.inl (step_throwAngle_unchanged s).1
    | nudgeLeft => exact Or.inl (step_throwAngle_unchanged s).2.1
    | nudgeRight => exact Or.inl (step_throwAngle_unchanged s).2.2.1
    | timerFire => exact Or.inl (step_throwAngle_unchanged s).2.2.2.1
    | afterRender => exact Or.inl (step_throwAngle_unchanged s).2.2.2.2
    | angleUp =>
      cases ha : s.allowThrow with
      | false => exact Or.inl (by simp [step, ha])
      | true =>
        simp only [step, ha, Bool.not_true, Bool.false_eq_true, if_false]
        by_cases hge : s.throwAngle ≥ 5
        · exact Or.inl (by rw [if_pos hge, add_zero])
        · exact Or.inr (Or.inl (by rw [if_neg hge]))
    | angleDown =>
      cases ha : s.allowThrow with
      | false => exact Or.inl (by simp [step, ha])
      | true =>
        simp only [step, ha, Bool.not_true, Bool.false_eq_true, if_false]
        by_cases hle : s.throwAngle ≤ -5
        · exact Or.inl (by rw [if_pos hle, sub_zero])
        · exact Or.inr (Or.inr (by rw [if_neg hle]))

/-- Witness for C5: twenty increments from the initial state leave the
angle inside [-5, 5] and a multiple of 0.5. -/
theorem throwAngle_clamped_witness :
    angleOK (run appInit (List.replicate 20 InputEvent.angleUp)).throwAngle ∧
    -5 ≤ (run appInit (List.replicate 20 InputEvent.angleUp)).throwAngle ∧
    (run appInit (List.replicate 20 InputEvent.angleUp)).throwAngle ≤ 5 := by
  have h1 := throwAngle_clamped.1 appInit
    (List.replicate 20 InputEvent.angleUp) ⟨0, by norm_num [appInit]⟩
  have h2 := throwAngle_clamped.2.1 _ h1
  exact ⟨h1, h2.1, h2.2.1⟩

/-- The lateral-position invariant actually maintained by the code:
the guard refuses a nudge only once `x` is already strictly past 1.8,
so `x` can overshoot by one 0.05 step, to at most 1.85. -/
def xOK (x : ℚ) : Prop :=
  -1.85 ≤ x ∧ x ≤ 1.85

lemma xOK_step (s : AppState) (e : InputEvent)
    (h : xOK s.ball.position.x) : xOK (step s e).1.ball.position.x := by
  obtain ⟨hlo, hhi⟩ := h
  cases e with
  | throwBall =>
    cases ha : s.allowThrow <;> simp [step, setLaneStage, ha] <;>
      exact ⟨hlo, hhi⟩
  | angleUp =>
    cases ha : s.allowThrow <;> simp [step, ha] <;> exact ⟨hlo, hhi⟩
  | angleDown =>
    cases ha : s.allowThrow <;> simp [step, ha] <;> exact ⟨hlo, hhi⟩
  | nudgeLeft =>
    cases ha : s.allowThrow with
    | false => simp [step, ha]; exact ⟨hlo, hhi⟩
    | true =>
      by_cases hx : s.ball.position.x > 1.8
      · simp [step, ha, hx]; exact ⟨hlo, hhi⟩
      · have hle : s.ball.position.x ≤ 1.8 := le_of_not_lt hx
        have hgoal : (step s InputEvent.nudgeLeft).1.ball.position.x
            = s.ball.position.x + 0.05 := by simp [step, ha, hx]
        rw [hgoal]
        exact ⟨by linarith, by linarith⟩
  | nudgeRight =>
    cases ha : s.allowThrow with
    | false => simp [step, ha]; exact ⟨hlo, hhi⟩
    | true =>
      by_cases hx : s.ball.position.x < -1.8
      · simp [step, ha, hx]; exact ⟨hlo, hhi⟩
      · have hle : -1.8 ≤ s.ball.position.x := le_of_not_lt hx
        have hgoal : (step s InputEvent.nudgeRight).1.ball.position.x
            = s.ball.position.x - 0.05 := by simp [step, ha, hx]
        rw [hgoal]
        exact ⟨by linarith, by linarith⟩
  | timerFire =>
    cases ht : s.resolutionTimer with
    | none => simp [step, ht]; exact ⟨hlo, hhi⟩
    | some d =>
      by_cases hl : s.laneStage = 0 <;>
        simp [step, ht, laneStageTimeout, hl, resetBall] <;> norm_num [xOK]
  | afterRender =>
    have hfold := (foldl_applyDeferred_fields s.deferred s).2.2.2.1
    show xOK (s.deferred.foldl applyDeferred s).ball.position.x
    rw [hfold]
    exact ⟨hlo, hhi⟩

lemma xOK_run (s : AppState) (evs : List InputEvent)
    (h : xOK s.ball.position.x) : xOK (run s evs).ball.position.x := by
  induction evs generalizing s with
  | nil => exact h
  | cons e rest ih =>
    show xOK (run (step s e).1 rest).ball.position.x
    exact ih _ (xOK_step s e h)

lemma run_nudgeLeft_accum :
    ∀ (n : ℕ) (s : AppState), s.allowThrow = true →
      s.ball.position.x + n * (0.05 : ℚ) ≤ 1.85 →
      (run s (List.replicate n InputEvent.nudgeLeft)).ball.position.x
          = s.ball.position.x + n * 0.05 ∧
      (run s (List.replicate n InputEvent.nudgeLeft)).allowThrow = true := by
  intro n
  induction n with
  | zero =>
    intro s ha _
    refine ⟨?_, ha⟩
    show s.ball.position.x = s.ball.position.x + 0 * 0.05
    ring
  | succ n ih =>
    intro s ha hbound
    have hstep : (0.05 : ℚ) ≤ ((n : ℚ) + 1) * 0.05 := by
      have : (0 : ℚ) ≤ (n : ℚ) := Nat.cast_nonneg n
      nlinarith
    have hx : ¬ s.ball.position.x > 1.8 := by
      push_cast at hbound
      intro hgt
      nlinarith
    have hs' : (step s InputEvent.nudgeLeft).1 =
        { s with ball := { s.ball with position :=
          { s.ball.position with x := s.ball.position.x + 0.05 } } } := by
      simp [step, ha, hx]
    have hrun : run s (List.replicate (n + 1) InputEvent.nudgeLeft) =
        run (step s InputEvent.nudgeLeft).1
          (List.replicate n InputEvent.nudgeLeft) := by
      rw [List.replicate_succ]
      rfl
    rw [hrun, hs']
    have hbound' :
        s.ball.position.x + 0.05 + (n : ℚ) * 0.05 ≤ 1.85 := by
      push_cast at hbound
      linarith
    obtain ⟨hx', ha'⟩ := ih
      { s with ball := { s.ball with position :=
        { s.ball.position with x := s.ball.position.x + 0.05 } } }
      ha hbound'
    refine ⟨?_, ha'⟩
    rw [hx']
    push_cast
    ring

/-- C6 counterexample: from the initial state, 37 consecutive left
nudges drive the ball to x = 1.85, strictly outside the claimed closed
interval [-1.8, 1.8] (the guard `x > 1.8` is checked before adding
0.05, so x = 1.8 still accepts one more nudge). -/
theorem ballX_exceeds_claimed_bound :
    (run appInit (List.replicate 37 InputEvent.nudgeLeft)).ball.position.x
        = 1.85 ∧
    ¬ ((run appInit
        (List.replicate 37 InputEvent.nudgeLeft)).ball.position.x ≤ 1.8) := by
  have h := run_nudgeLeft_accum 37 appInit rfl (by norm_num [appInit])
  rw [h.1]
  norm_num [appInit]

/-- C6 as amended: the lateral position is clamped to the closed
interval [-1.85, 1.85] (one 0.05 step beyond the guard threshold 1.8):
the invariant holds initially, is preserved by every event, and once
`x` is strictly past a threshold a further nudge in that direction is
refused as a no-op. -/
theorem ballX_clamped_amended :
    (∀ (s : AppState) (evs : List InputEvent),
      xOK s.ball.position.x → xOK (run s evs).ball.position.x) ∧
    xOK appInit.ball.position.x ∧
    (∀ s : AppState, s.ball.position.x > 1.8 →
      step s InputEvent.nudgeLeft = (s, [])) ∧
    (∀ s : AppState, s.ball.position.x < -1.8 →
      step s InputEvent.nudgeRight = (s, [])) := by
  refine ⟨xOK_run, by norm_num [xOK, appInit], ?_, ?_⟩
  · intro s hx
    cases ha : s.allowThrow <;> simp [step, ha, hx]
  · intro s hx
    cases ha : s.allowThrow <;> simp [step, ha, hx]

/-- Witness for C6 (amended) at the initial state: the [-1.85, 1.85]
invariant survives 37 left nudges, and a state already past the
threshold refuses a further nudge. -/
theorem ballX_clamped_amended_witness :
    xOK (run appInit
      (List.replicate 37 InputEvent.nudgeLeft)).ball.position.x ∧
    step { appInit with ball :=
        { position := ⟨1.85, 0.5, 1⟩,
          motionType := PhysicsMotionType.DYNAMIC,
          disablePreStep := true } } InputEvent.nudgeLeft =
      ({ appInit with ball :=
        { position := ⟨1.85, 0.5, 1⟩,
          motionType := PhysicsMotionType.DYNAMIC,
          disablePreStep := true } }, []) := by
  constructor
  · exact ballX_clamped_amended.1 appInit _ (by norm_num [xOK, appInit])
  · exact ballX_clamped_amended.2.2.1 _ (by norm_num)

/-- C1: a throw immediately clears `allowThrow` and schedules the
6000 ms resolution timer; while `allowThrow` is false every throw,
angle and nudge handler is a no-op (state unchanged, no impulse
applied); and `allowThrow` can only become true again through the
pending timer firing, whose handler is exactly the lane-stage
processing `laneStageTimeout` (which ends by setting
`allowThrow = true`). -/
theorem allowThrow_gating :
    (∀ s : AppState, s.allowThrow = true →
      (step s InputEvent.throwBall).1.allowThrow = false ∧
      (step s InputEvent.throwBall).1.resolutionTimer
          = some RESOLUTION_DELAY_MS) ∧
    (∀ s : AppState, s.allowThrow = false →
      step s InputEvent.throwBall = (s, []) ∧
      step s InputEvent.angleUp = (s, []) ∧
      step s InputEvent.angleDown = (s, []) ∧
      step s InputEvent.nudgeLeft = (s, []) ∧
      step s InputEvent.nudgeRight = (s, [])) ∧
    (∀ (s : AppState) (e : InputEvent), s.allowThrow = false →
      (step s e).1.allowThrow = true →
      e = InputEvent.timerFire ∧ s.resolutionTimer ≠ none ∧
      (step s e).1 = laneStageTimeout s) ∧
    (∀ s : AppState, (laneStageTimeout s).allowThrow = true) ∧
    RESOLUTION_DELAY_MS = 6000 := by
  refine ⟨?_, ?_, ?_, ?_, rfl⟩
  · intro s ha
    constructor <;> simp [step, setLaneStage, ha]
  · intro s ha
    refine ⟨?_, ?_, ?_, ?_, ?_⟩ <;> simp [step, ha]
  · intro s e ha htrue
    cases e with
    | throwBall =>
      rw [show (step s InputEvent.throwBall).1 = s by simp [step, ha]] at htrue
      simp [ha] at htrue
    | angleUp =>
      rw [show (step s InputEvent.angleUp).1 = s by simp [step, ha]] at htrue
      simp [ha] at htrue
    | angleDown =>
      rw [show (step s InputEvent.angleDown).1 = s by simp [step, ha]] at htrue
      simp [ha] at htrue
    | nudgeLeft =>
      rw [show (step s InputEvent.nudgeLeft).1 = s by simp [step, ha]] at htrue
      simp [ha] at htrue
    | nudgeRight =>
      rw [show (step s InputEvent.nudgeRight).1 = s by simp [step, ha]] at htrue
      simp [ha] at htrue
    | afterRender =>
      rw [show (step s InputEvent.afterRender).1.allowThrow = s.allowThrow from
        (foldl_applyDeferred_fields s.deferred s).2.1] at htrue
      simp [ha] at htrue
    | timerFire =>
      cases ht : s.resolutionTimer with
      | none =>
        rw [show (step s InputEvent.timerFire).1 = s by simp [step, ht]] at htrue
        simp [ha] at htrue
      | some d =>
        exact ⟨rfl, by simp [ht], by simp [step, ht]⟩
  · intro s
    by_cases hl : s.laneStage = 0 <;> simp [laneStageTimeout, hl]

/-- Witness for C1 at the initial state: a throw clears `allowThrow`;
in the thrown state the angle handler is a no-op; firing the pending
timer runs exactly the lane-stage processing. -/
theorem allowThrow_gating_witness :
    (step appInit InputEvent.throwBall).1.allowThrow = false ∧
    step (setLaneStage appInit) InputEvent.angleUp
        = (setLaneStage appInit, []) ∧
    (step (setLaneStage appInit) InputEvent.timerFire).1
        = laneStageTimeout (setLaneStage appInit) := by
  refine ⟨(allowThrow_gating.1 appInit rfl).1,
    (allowThrow_gating.2.1 (setLaneStage appInit) rfl).2.1,
    (allowThrow_gating.2.2.1 (setLaneStage appInit) InputEvent.timerFire
      rfl ?_).2.2⟩
  show (laneStageTimeout (setLaneStage appInit)).allowThrow = true
  exact allowThrow_gating.2.2.2.1 (setLaneStage appInit)

lemma getD_map_get {α β : Type} (f : α → β) (l : List α) (i : ℕ)
    (hi : i < l.length) (d : β) :
    (l.map f).getD i d = f (l.get ⟨i, hi⟩) := by
  rw [List.getD_eq_getElem?_getD, List.getElem?_map, List.getElem?_eq_getElem hi]
  rfl

lemma isPinUp_uprightEuler (p : Vec3) (m : PhysicsMotionType) (d : Bool) :
    isPinUp ⟨some uprightEuler, p, m, d⟩ = true := by
  rw [isPinUp_some]
  norm_num [uprightEuler]

lemma map_freezeFallenPin_of_upright {pins : List PinState}
    (h : ∀ pin ∈ pins, isPinUp pin = true) :
    pins.map freezeFallenPin = pins := by
  induction pins with
  | nil => rfl
  | cons p t ih =>
    rw [List.map_cons, ih (fun q hq => h q (List.mem_cons_of_mem p hq))]
    have hp : isPinUp p = true := h p (List.mem_cons_self p t)
    rw [show freezeFallenPin p = p from by simp [freezeFallenPin, hp]]

/-- C2: from a state accepting throws with `throwAngle = 0` and
`throwPower = 100`, the throw applies the impulse (0, 0, 100) at the
ball's position and schedules the 6000 ms timer; if at resolution time
`laneStage = 0` and all pins classify upright, the stage flips to 1,
no pin is modified, the ball is back at (0, 0.5, 1) and `allowThrow`
is true again. -/
theorem throw_scenario_all_upright :
    ∀ s : AppState,
      s.allowThrow = true → s.throwAngle = 0 → s.throwPower = 100 →
      s.laneStage = 0 → (∀ pin ∈ s.pins, isPinUp pin = true) →
      (step s InputEvent.throwBall).2
          = [Effect.applyImpulse ⟨0, 0, 100⟩ s.ball.position] ∧
      (step s InputEvent.throwBall).1.resolutionTimer = some 6000 ∧
      (step s InputEvent.throwBall).1.allowThrow = false ∧
      (step (step s InputEvent.throwBall).1 InputEvent.timerFire).1.laneStage
          = 1 ∧
      (step (step s InputEvent.throwBall).1 InputEvent.timerFire).1.pins
          = s.pins ∧
      (step (step s InputEvent.throwBall).1
          InputEvent.timerFire).1.ball.position = ⟨0, 0.5, 1⟩ ∧
      (step (step s InputEvent.throwBall).1 InputEvent.timerFire).1.allowThrow
          = true := by
  intro s ha h0 h100 hl hup
  have hs1 : (step s InputEvent.throwBall).1 = setLaneStage s := by
    simp [step, ha]
  have heff : (step s InputEvent.throwBall).2
      = [Effect.applyImpulse ⟨0, 0, 100⟩ s.ball.position] := by
    simp [step, ha, h0, h100]
  have hs2 : (step (setLaneStage s) InputEvent.timerFire).1
      = laneStageTimeout (setLaneStage s) := by
    simp [step, setLaneStage]
  have hstage : (setLaneStage s).laneStage = 0 := hl
  have htimeout : laneStageTimeout (setLaneStage s) =
      { setLaneStage s with
        laneStage := 1
        ball := resetBall (setLaneStage s).ball
        pins := (setLaneStage s).pins.map freezeFallenPin
        deferred := (setLaneStage s).deferred ++ stage0DeferredOps
        allowThrow := true
        resolutionTimer := none } := by
    rw [laneStageTimeout, if_pos hstage]
  refine ⟨heff, by rw [hs1]; rfl, by rw [hs1]; rfl, ?_, ?_, ?_, ?_⟩
  · rw [hs1, hs2, htimeout]
  · rw [hs1, hs2, htimeout]
    show (setLaneStage s).pins.map freezeFallenPin = s.pins
    exact map_freezeFallenPin_of_upright hup
  · rw [hs1, hs2, htimeout]; rfl
  · rw [hs1, hs2, htimeout]

/-- A concrete post-initialization state in which the physics engine
has settled every pin exactly at the upright rest orientation. -/
def allUprightState : AppState :=
  { appInit with pins := pinPositions.map (fun p =>
      { euler := some uprightEuler
        position := p
        motionType := PhysicsMotionType.DYNAMIC
        disablePreStep := true }) }

/-- Witness for C2 at `allUprightState`. -/
theorem throw_scenario_all_upright_witness :
    (step allUprightState InputEvent.throwBall).2
        = [Effect.applyImpulse ⟨0, 0, 100⟩ allUprightState.ball.position] ∧
    (step (step allUprightState InputEvent.throwBall).1
        InputEvent.timerFire).1.laneStage = 1 ∧
    (step (step allUprightState InputEvent.throwBall).1
        InputEvent.timerFire).1.pins = allUprightState.pins ∧
    (step (step allUprightState InputEvent.throwBall).1
        InputEvent.timerFire).1.allowThrow = true := by
  have h := throw_scenario_all_upright allUprightState rfl rfl rfl rfl ?_
  · exact ⟨h.1, h.2.2.2.1, h.2.2.2.2.1, h.2.2.2.2.2.2⟩
  · intro pin hpin
    rw [show allUprightState.pins = pinPositions.map (fun p =>
        ({ euler := some uprightEuler
           position := p
           motionType := PhysicsMotionType.DYNAMIC
           disablePreStep := true } : PinState)) from rfl] at hpin
    obtain ⟨p, _, rfl⟩ := List.mem_map.1 hpin
    exact isPinUp_uprightEuler p PhysicsMotionType.DYNAMIC true

lemma freezeFallenPin_of_fallen {pin : PinState} (h : isPinUp pin = false) :
    freezeFallenPin pin =
      { pin with
        motionType := PhysicsMotionType.STATIC
        disablePreStep := false
        position := { pin.position with y := 1.5 }
        euler := some uprightEuler } := by
  unfold freezeFallenPin
  rw [h]
  rfl

lemma freezeFallenPin_of_upright {pin : PinState} (h : isPinUp pin = true) :
    freezeFallenPin pin = pin := by
  unfold freezeFallenPin
  rw [h]
  rfl

/-- C3: on a stage-0 resolution, exactly the pins classified fallen are
frozen (`STATIC`, pre-step disabled) and repositioned to `y = 1.5`
(keeping `x` and `z`), while every pin classified upright is left
completely unchanged — in particular it keeps `DYNAMIC` motion when it
had it. -/
theorem stage0_resolution_pins :
    ∀ s : AppState, s.laneStage = 0 →
      (laneStageTimeout s).pins.length = s.pins.length ∧
      ∀ i, (hi : i < s.pins.length) →
        (isPinUp (s.pins.get ⟨i, hi⟩) = false →
          ((laneStageTimeout s).pins.getD i default).motionType
              = PhysicsMotionType.STATIC ∧
          ((laneStageTimeout s).pins.getD i default).position
              = { (s.pins.get ⟨i, hi⟩).position with y := 1.5 } ∧
          ((laneStageTimeout s).pins.getD i default).disablePreStep = false) ∧
        (isPinUp (s.pins.get ⟨i, hi⟩) = true →
          (laneStageTimeout s).pins.getD i default = s.pins.get ⟨i, hi⟩ ∧
          ((s.pins.get ⟨i, hi⟩).motionType = PhysicsMotionType.DYNAMIC →
            ((laneStageTimeout s).pins.getD i default).motionType
                = PhysicsMotionType.DYNAMIC)) := by
  intro s hl
  have hpins : (laneStageTimeout s).pins = s.pins.map freezeFallenPin := by
    rw [laneStageTimeout, if_pos hl]
  constructor
  · rw [hpins, List.length_map]
  · intro i hi
    have hget : (laneStageTimeout s).pins.getD i default
        = freezeFallenPin (s.pins.get ⟨i, hi⟩) := by
      rw [hpins, getD_map_get freezeFallenPin s.pins i hi default]
    constructor
    · intro hfall
      rw [hget, freezeFallenPin_of_fallen hfall]
      exact ⟨rfl, rfl, rfl⟩
    · intro hup
      rw [hget, freezeFallenPin_of_upright hup]
      exact ⟨rfl, fun h => h⟩

/-- A concrete stage-0 state with pin 0 fallen (no orientation yet)
and pin 1 upright at the rest orientation. -/
def mixedPinsState : AppState :=
  { appInit with pins :=
      [{ euler := none
         position := ⟨0, 0, 31.51⟩
         motionType := PhysicsMotionType.DYNAMIC
         disablePreStep := true },
       { euler := some uprightEuler
         position := ⟨0.55, 0, 32.455⟩
         motionType := PhysicsMotionType.DYNAMIC
         disablePreStep := true }] }

/-- Witness for C3 at `mixedPinsState`: the fallen pin 0 is frozen at
`y = 1.5`, the upright pin 1 is untouched and still dynamic. -/
theorem stage0_resolution_pins_witness :
    ((laneStageTimeout mixedPinsState).pins.getD 0 default).motionType
        = PhysicsMotionType.STATIC ∧
    ((laneStageTimeout mixedPinsState).pins.getD 0 default).position.y = 1.5 ∧
    (laneStageTimeout mixedPinsState).pins.getD 1 default
        = mixedPinsState.pins.get ⟨1, by decide⟩ ∧
    ((laneStageTimeout mixedPinsState).pins.getD 1 default).motionType
        = PhysicsMotionType.DYNAMIC := by
  have h := stage0_resolution_pins mixedPinsState rfl
  have h0 := (h.2 0 (by decide)).1 rfl
  have h1 := (h.2 1 (by decide)).2
    (isPinUp_uprightEuler ⟨0.55, 0, 32.455⟩ PhysicsMotionType.DYNAMIC true)
  exact ⟨h0.1, by rw [h0.2.1], h1.1, h1.2 rfl⟩

lemma writesGuarded_nil (off : List BodyId) : writesGuarded off [] = true := rfl

lemma writesGuarded_disable (off : List BodyId) (b : BodyId)
    (rest : List (BodyId × SyncOp)) :
    writesGuarded off ((b, SyncOp.disablePreStepFalse) :: rest)
      = writesGuarded (b :: off) rest := rfl

lemma writesGuarded_static (off : List BodyId) (b : BodyId)
    (rest : List (BodyId × SyncOp)) :
    writesGuarded off ((b, SyncOp.motionStatic) :: rest)
      = writesGuarded off rest := rfl

lemma writesGuarded_writePosition (off : List BodyId) (b : BodyId) (p : Vec3)
    (rest : List (BodyId × SyncOp)) :
    writesGuarded off ((b, SyncOp.writePosition p) :: rest)
      = (decide (b ∈ off) && writesGuarded off rest) := rfl

lemma writesGuarded_writePosY (off : List BodyId) (b : BodyId) (y : ℚ)
    (rest : List (BodyId × SyncOp)) :
    writesGuarded off ((b, SyncOp.writePosY y) :: rest)
      = (decide (b ∈ off) && writesGuarded off rest) := rfl

lemma writesGuarded_writeEuler (off : List BodyId) (b : BodyId) (e : Vec3)
    (rest : List (BodyId × SyncOp)) :
    writesGuarded off ((b, SyncOp.writeEuler e) :: rest)
      = (decide (b ∈ off) && writesGuarded off rest) := rfl

lemma writesGuarded_ballReset (off : List BodyId)
    (rest : List (BodyId × SyncOp)) :
    writesGuarded off (ballResetOps ++ rest)
      = writesGuarded (BodyId.ball :: off) rest := by
  have hm : decide (BodyId.ball ∈ BodyId.ball :: off) = true :=
    decide_eq_true (List.mem_cons_self _ _)
  simp [ballResetOps, writesGuarded_disable, writesGuarded_writePosition,
    writesGuarded_static, hm]

lemma writesGuarded_freezeBlock (off : List BodyId) (i : ℕ)
    (rest : List (BodyId × SyncOp)) :
    writesGuarded off (freezePinOps i ++ rest)
      = writesGuarded (BodyId.pin i :: off) rest := by
  have hm : decide (BodyId.pin i ∈ BodyId.pin i :: off) = true :=
    decide_eq_true (List.mem_cons_self _ _)
  simp [freezePinOps, writesGuarded_static, writesGuarded_disable,
    writesGuarded_writePosY, writesGuarded_writeEuler, hm]

lemma writesGuarded_resetBlock (off : List BodyId) (i : ℕ)
    (rest : List (BodyId × SyncOp)) :
    writesGuarded off (resetPinOps i ++ rest)
      = writesGuarded (BodyId.pin i :: off) rest := by
  have hm : decide (BodyId.pin i ∈ BodyId.pin i :: off) = true :=
    decide_eq_true (List.mem_cons_self _ _)
  simp [resetPinOps, writesGuarded_static, writesGuarded_disable,
    writesGuarded_writePosition, writesGuarded_writeEuler, hm]

lemma writesGuarded_stage0_blocks :
    ∀ (l : List (ℕ × PinState)) (off : List BodyId),
      writesGuarded off
        (l.flatMap (fun ip => if isPinUp ip.2 then [] else freezePinOps ip.1))
        = true := by
  intro l
  induction l with
  | nil => intro off; rfl
  | cons ip t ih =>
    intro off
    rw [List.flatMap_cons]
    cases hup : isPinUp ip.2 with
    | true => rw [if_pos rfl, List.nil_append]; exact ih off
    | false =>
      rw [if_neg Bool.false_ne_true, writesGuarded_freezeBlock]
      exact ih _

lemma writesGuarded_stage1_blocks :
    ∀ (l : List (ℕ × PinState)) (off : List BodyId),
      writesGuarded off (l.flatMap (fun ip => resetPinOps ip.1)) = true := by
  intro l
  induction l with
  | nil => intro off; rfl
  | cons ip t ih =>
    intro off
    rw [List.flatMap_cons, writesGuarded_resetBlock]
    exact ih _

/-- C7 counterexample: in the freshly initialized state every pin has
no orientation yet, so a throw plus the stage-0 resolution teleports
pin 0 (its position is written, y = 1.5) after disabling its pre-step
flag — but the stage-0 `addOnce` callback re-enables the flag only for
the ball, so even after the next render pin 0 still has
`disablePreStep = false`: the trace contains a pin-0 write while the
deferred list contains no pin-0 re-enable. -/
theorem teleport_reenable_cex :
    ((run appInit [InputEvent.throwBall, InputEvent.timerFire,
        InputEvent.afterRender]).pins.getD 0 default).position.y = 1.5 ∧
    ((run appInit [InputEvent.throwBall, InputEvent.timerFire,
        InputEvent.afterRender]).pins.getD 0 default).disablePreStep = false ∧
    (stage0SyncOps appInit.pins).any
        (fun op => decide (op.1 = BodyId.pin 0) && isWriteOp op.2) = true ∧
    reEnabledIn stage0DeferredOps (BodyId.pin 0) = false := by
  exact ⟨rfl, rfl, rfl, rfl⟩

/-- C7 as amended: in both lane stages every position/orientation write
of the `setTimeout` body is preceded by `disablePreStep = false` on the
same body, and the `addOnce` callback re-enables the flag after the
next render for the ball (both stages) and for every pin in the
stage-1 reset; but the pins frozen by the stage-0 branch are never
re-enabled, and the stage-0 after-render pass leaves every pin exactly
as the resolution wrote it. -/
theorem teleport_prestep_ordering :
    ∀ (pins : List PinState) (s : AppState),
      writesGuarded [] (stage0SyncOps pins) = true ∧
      writesGuarded [] (stage1SyncOps pins) = true ∧
      reEnabledIn stage0DeferredOps BodyId.ball = true ∧
      reEnabledIn (stage1DeferredOps pins.length) BodyId.ball = true ∧
      (∀ i, i < pins.length →
        reEnabledIn (stage1DeferredOps pins.length) (BodyId.pin i) = true) ∧
      (∀ i, reEnabledIn stage0DeferredOps (BodyId.pin i) = false) ∧
      (s.deferred = [] → s.laneStage = 0 →
        (step (laneStageTimeout s)
            InputEvent.afterRender).1.ball.disablePreStep = true ∧
        (step (laneStageTimeout s) InputEvent.afterRender).1.pins
            = (laneStageTimeout s).pins) := by
  intro pins s
  refine ⟨?_, ?_, rfl, rfl, ?_, ?_, ?_⟩
  · rw [stage0SyncOps, writesGuarded_ballReset]
    exact writesGuarded_stage0_blocks pins.enum _
  · rw [stage1SyncOps, writesGuarded_ballReset]
    exact writesGuarded_stage1_blocks pins.enum _
  · intro i hi
    apply decide_eq_true
    rw [stage1DeferredOps]
    apply List.mem_append_right
    rw [List.mem_flatMap]
    exact ⟨i, List.mem_range.2 hi, List.mem_cons_self _ _⟩
  · intro i
    apply decide_eq_false
    simp [stage0DeferredOps]
  · intro hd hl
    have hdef : (laneStageTimeout s).deferred = stage0DeferredOps := by
      rw [laneStageTimeout, if_pos hl]
      show s.deferred ++ stage0DeferredOps = stage0DeferredOps
      rw [hd, List.nil_append]
    constructor
    · show ((laneStageTimeout s).deferred.foldl applyDeferred
        (laneStageTimeout s)).ball.disablePreStep = true
      rw [hdef]
      rfl
    · show ((laneStageTimeout s).deferred.foldl applyDeferred
        (laneStageTimeout s)).pins = (laneStageTimeout s).pins
      rw [hdef]
      rfl

/-- Witness for C7 (amended) at the initialized state and its thrown
successor. -/
theorem teleport_prestep_ordering_witness :
    writesGuarded [] (stage0SyncOps appInit.pins) = true ∧
    reEnabledIn (stage1DeferredOps appInit.pins.length) (BodyId.pin 0)
        = true ∧
    (step (laneStageTimeout (setLaneStage appInit))
        InputEvent.afterRender).1.ball.disablePreStep = true := by
  refine ⟨(teleport_prestep_ordering appInit.pins appInit).1,
    (teleport_prestep_ordering appInit.pins appInit).2.2.2.2.1 0
      (by decide),
    ((teleport_prestep_ordering appInit.pins
      (setLaneStage appInit)).2.2.2.2.2.2 rfl rfl).1⟩
